import Mathlib

/-!
A shallow embedding of the WebSocket opening-handshake core of the
`ratchet` repository (files `ratchet_core/src/handshake/mod.rs` and
`ratchet_core/src/handshake/server/encoding.rs`), together with theorems
checking the natural-language specification against it.

Conventions of the embedding:
* Rust byte slices and strings are `List Nat` (each element an octet value);
  string constants are spelled as their ASCII code lists.
* Fallible Rust functions returning `Result` become `Except`.
* The pluggable collaborators (the `httparse` byte parser, the `http`
  crate URI parser, the extension provider) enter as explicit function
  arguments or as faithfully modelled interface functions.
-/

namespace Ratchet

/-- ASCII lowercase conversion of one byte, mirroring
`u8::to_ascii_lowercase`. -/
def toLowerByte (b : Nat) : Nat :=
  if 65 ≤ b ∧ b ≤ 90 then b + 32 else b

/-- Byte-slice case-insensitive equality, mirroring
`eq_ignore_ascii_case` on `[u8]` and `str`. -/
def eqIgnoreCase (a b : List Nat) : Bool :=
  a.map toLowerByte == b.map toLowerByte

/-- Constant `METHOD_GET: &str = "get"` from `handshake/mod.rs`. -/
def METHOD_GET : List Nat := [103, 101, 116]

/-- Constant `UPGRADE_STR: &str = "upgrade"` from `handshake/mod.rs`. -/
def UPGRADE_STR : List Nat := [117, 112, 103, 114, 97, 100, 101]

/-- Constant `WEBSOCKET_STR: &str = "websocket"` from `handshake/mod.rs`. -/
def WEBSOCKET_STR : List Nat := [119, 101, 98, 115, 111, 99, 107, 101, 116]

/-- Constant `WEBSOCKET_VERSION_STR: &str = "13"` from `handshake/mod.rs`. -/
def WEBSOCKET_VERSION_STR : List Nat := [49, 51]

/-- The lowercase name of the standard `http::header::CONNECTION` header. -/
def CONNECTION_NAME : List Nat := [99, 111, 110, 110, 101, 99, 116, 105, 111, 110]

/-- The lowercase name of the standard `http::header::UPGRADE` header. -/
def UPGRADE_NAME : List Nat := [117, 112, 103, 114, 97, 100, 101]

/-- The lowercase name of `http::header::SEC_WEBSOCKET_VERSION`. -/
def SEC_WEBSOCKET_VERSION_NAME : List Nat :=
  [115, 101, 99, 45, 119, 101, 98, 115, 111, 99, 107, 101, 116, 45, 118, 101, 114, 115, 105, 111, 110]

/-- The lowercase name of the standard `http::header::HOST` header. -/
def HOST_NAME : List Nat := [104, 111, 115, 116]

/-- The lowercase name of `http::header::SEC_WEBSOCKET_KEY`. -/
def SEC_WEBSOCKET_KEY_NAME : List Nat :=
  [115, 101, 99, 45, 119, 101, 98, 115, 111, 99, 107, 101, 116, 45, 107, 101, 121]

/-- The lowercase name of `http::header::SEC_WEBSOCKET_PROTOCOL`. -/
def SEC_WEBSOCKET_PROTOCOL_NAME : List Nat :=
  [115, 101, 99, 45, 119, 101, 98, 115, 111, 99, 107, 101, 116, 45, 112, 114, 111, 116, 111, 99, 111, 108]

/-- Constant `HTTP_VERSION: &[u8] = b"HTTP/1.1 "` from `server/encoding.rs`
(nine bytes, trailing space included). -/
def HTTP_VERSION : List Nat := [72, 84, 84, 80, 47, 49, 46, 49, 32]

/-- Constant `STATUS_TERMINATOR_LEN: usize = 2` from `server/encoding.rs`. -/
def STATUS_TERMINATOR_LEN : Nat := 2

/-- Constant `TERMINATOR_NO_HEADERS: &[u8] = b"\r\n\r\n"` from
`server/encoding.rs`. -/
def TERMINATOR_NO_HEADERS : List Nat := [13, 10, 13, 10]

/-- Constant `TERMINATOR_WITH_HEADER: &[u8] = b"\r\n"` from
`server/encoding.rs`. -/
def TERMINATOR_WITH_HEADER : List Nat := [13, 10]

/-- The default method string of an owned `http::Request`, displayed `GET`. -/
def GET_UPPER : List Nat := [71, 69, 84]

/-- One raw header as produced by the `httparse` byte parser: a borrowed
name string and a borrowed value byte slice (`httparse::Header`). -/
structure RawHeader where
  name : List Nat
  value : List Nat
deriving DecidableEq

/-- The fields of `httparse::Request` that the handshake code reads:
`method`, `path` and `version` (all optional until parsed) and the
header list. -/
structure HttparseRequest where
  method : Option (List Nat)
  path : Option (List Nat)
  version : Option Nat
  headers : List RawHeader
deriving DecidableEq

/-- The protocol-validation error `crate::HttpError` as the handshake code
constructs it.  `invalidHeaderConv` is the variant a header-conversion
failure (`crate::InvalidHeader`, a diagnostic byte string) is wrapped into
when the `?` operator converts it; the spec states the failure propagates
unchanged, and the payload is kept verbatim. -/
inductive HttpError where
  | httpVersion (v : Option Nat)
  | httpMethod (m : Option (List Nat))
  | missingHeader (name : List Nat)
  | invalidHeader (name : List Nat)
  | malformattedUri (p : Option (List Nat))
  | invalidHeaderConv (diagnostic : List Nat)
deriving DecidableEq

/-- The crate-level `Error` as the handshake code constructs it: an
`ErrorKind` with a cause.  `http e` is `Error::with_cause(ErrorKind::Http, e)`,
`extensionErr` is an `ErrorKind::Extension` error (the pluggable payload is
dropped), and `httparseFailed` is the converted `httparse` syntax error. -/
inductive Error where
  | http (e : HttpError)
  | extensionErr
  | httparseFailed
deriving DecidableEq

/-- The header lookup shared by `validate_header` and `get_header`
(`handshake/mod.rs`): the first header whose name equals `name`
case-insensitively. -/
def findHeader (headers : List RawHeader) (name : List Nat) : Option RawHeader :=
  headers.find? (fun h => eqIgnoreCase h.name name)

/-- `validate_header` from `handshake/mod.rs`: find the first header named
`name` case-insensitively and apply `f` to the name and its value;
a missing header is `HttpError::MissingHeader(name)`. -/
def validate_header (headers : List RawHeader) (name : List Nat)
    (f : List Nat → List Nat → Except Error Unit) : Except Error Unit :=
  match findHeader headers name with
  | some header => f name header.value
  | none => Except.error (Error.http (HttpError.missingHeader name))

/-- `validate_header_value` from `handshake/mod.rs`: the header must be
present and its value case-insensitively equal to `expected`, else
`HttpError::InvalidHeader(name)`. -/
def validate_header_value (headers : List RawHeader) (name : List Nat)
    (expected : List Nat) : Except Error Unit :=
  validate_header headers name (fun name actual =>
    if eqIgnoreCase actual expected then Except.ok ()
    else Except.error (Error.http (HttpError.invalidHeader name)))

/-- `get_header` from `handshake/mod.rs`: the first case-insensitive match
is copied out (`Bytes::from(header.value.to_vec())`), else
`HttpError::MissingHeader(name)`. -/
def get_header (headers : List RawHeader) (name : List Nat) :
    Except Error (List Nat) :=
  match findHeader headers name with
  | some header => Except.ok header.value
  | none => Except.error (Error.http (HttpError.missingHeader name))

/-- The decimal digit string of a status code, mirroring
`http::StatusCode::as_str` (status codes are three decimal digits). -/
def statusAsStr (code : Nat) : List Nat :=
  (Nat.toDigits 10 code).map Char.toNat

/-- The canonical reason phrase table of `http::StatusCode::canonical_reason`
(external collaborator of `write_response`); codes outside the table have
no canonical reason. -/
def canonicalReason (code : Nat) : Option (List Nat) :=
  match code with
  | 100 => some [67, 111, 110, 116, 105, 110, 117, 101]
  | 101 => some [83, 119, 105, 116, 99, 104, 105, 110, 103, 32, 80, 114, 111, 116, 111, 99, 111, 108, 115]
  | 102 => some [80, 114, 111, 99, 101, 115, 115, 105, 110, 103]
  | 200 => some [79, 75]
  | 201 => some [67, 114, 101, 97, 116, 101, 100]
  | 202 => some [65, 99, 99, 101, 112, 116, 101, 100]
  | 203 => some [78, 111, 110, 45, 65, 117, 116, 104, 111, 114, 105, 116, 97, 116, 105, 118, 101, 32, 73, 110, 102, 111, 114, 109, 97, 116, 105, 111, 110]
  | 204 => some [78, 111, 32, 67, 111, 110, 116, 101, 110, 116]
  | 205 => some [82, 101, 115, 101, 116, 32, 67, 111, 110, 116, 101, 110, 116]
  | 206 => some [80, 97, 114, 116, 105, 97, 108, 32, 67, 111, 110, 116, 101, 110, 116]
  | 207 => some [77, 117, 108, 116, 105, 45, 83, 116, 97, 116, 117, 115]
  | 208 => some [65, 108, 114, 101, 97, 100, 121, 32, 82, 101, 112, 111, 114, 116, 101, 100]
  | 226 => some [73, 77, 32, 85, 115, 101, 100]
  | 300 => some [77, 117, 108, 116, 105, 112, 108, 101, 32, 67, 104, 111, 105, 99, 101, 115]
  | 301 => some [77, 111, 118, 101, 100, 32, 80, 101, 114, 109, 97, 110, 101, 110, 116, 108, 121]
  | 302 => some [70, 111, 117, 110, 100]
  | 303 => some [83, 101, 101, 32, 79, 116, 104, 101, 114]
  | 304 => some [78, 111, 116, 32, 77, 111, 100, 105, 102, 105, 101, 100]
  | 305 => some [85, 115, 101, 32, 80, 114, 111, 120, 121]
  | 307 => some [84, 101, 109, 112, 111, 114, 97, 114, 121, 32, 82, 101, 100, 105, 114, 101, 99, 116]
  | 308 => some [80, 101, 114, 109, 97, 110, 101, 110, 116, 32, 82, 101, 100, 105, 114, 101, 99, 116]
  | 400 => some [66, 97, 100, 32, 82, 101, 113, 117, 101, 115, 116]
  | 401 => some [85, 110, 97, 117, 116, 104, 111, 114, 105, 122, 101, 100]
  | 402 => some [80, 97, 121, 109, 101, 110, 116, 32, 82, 101, 113, 117, 105, 114, 101, 100]
  | 403 => some [70, 111, 114, 98, 105, 100, 100, 101, 110]
  | 404 => some [78, 111, 116, 32, 70, 111, 117, 110, 100]
  | 405 => some [77, 101, 116, 104, 111, 100, 32, 78, 111, 116, 32, 65, 108, 108, 111, 119, 101, 100]
  | 406 => some [78, 111, 116, 32, 65, 99, 99, 101, 112, 116, 97, 98, 108, 101]
  | 407 => some [80, 114, 111, 120, 121, 32, 65, 117, 116, 104, 101, 110, 116, 105, 99, 97, 116, 105, 111, 110, 32, 82, 101, 113, 117, 105, 114, 101, 100]
  | 408 => some [82, 101, 113, 117, 101, 115, 116, 32, 84, 105, 109, 101, 111, 117, 116]
  | 409 => some [67, 111, 110, 102, 108, 105, 99, 116]
  | 410 => some [71, 111, 110, 101]
  | 411 => some [76, 101, 110, 103, 116, 104, 32, 82, 101, 113, 117, 105, 114, 101, 100]
  | 412 => some [80, 114, 101, 99, 111, 110, 100, 105, 116, 105, 111, 110, 32, 70, 97, 105, 108, 101, 100]
  | 413 => some [80, 97, 121, 108, 111, 97, 100, 32, 84, 111, 111, 32, 76, 97, 114, 103, 101]
  | 414 => some [85, 82, 73, 32, 84, 111, 111, 32, 76, 111, 110, 103]
  | 415 => some [85, 110, 115, 117, 112, 112, 111, 114, 116, 101, 100, 32, 77, 101, 100, 105, 97, 32, 84, 121, 112, 101]
  | 416 => some [82, 97, 110, 103, 101, 32, 78, 111, 116, 32, 83, 97, 116, 105, 115, 102, 105, 97, 98, 108, 101]
  | 417 => some [69, 120, 112, 101, 99, 116, 97, 116, 105, 111, 110, 32, 70, 97, 105, 108, 101, 100]
  | 418 => some [73, 39, 109, 32, 97, 32, 116, 101, 97, 112, 111, 116]
  | 421 => some [77, 105, 115, 100, 105, 114, 101, 99, 116, 101, 100, 32, 82, 101, 113, 117, 101, 115, 116]
  | 422 => some [85, 110, 112, 114, 111, 99, 101, 115, 115, 97, 98, 108, 101, 32, 69, 110, 116, 105, 116, 121]
  | 423 => some [76, 111, 99, 107, 101, 100]
  | 424 => some [70, 97, 105, 108, 101, 100, 32, 68, 101, 112, 101, 110, 100, 101, 110, 99, 121]
  | 426 => some [85, 112, 103, 114, 97, 100, 101, 32, 82, 101, 113, 117, 105, 114, 101, 100]
  | 428 => some [80, 114, 101, 99, 111, 110, 100, 105, 116, 105, 111, 110, 32, 82, 101, 113, 117, 105, 114, 101, 100]
  | 429 => some [84, 111, 111, 32, 77, 97, 110, 121, 32, 82, 101, 113, 117, 101, 115, 116, 115]
  | 431 => some [82, 101, 113, 117, 101, 115, 116, 32, 72, 101, 97, 100, 101, 114, 32, 70, 105, 101, 108, 100, 115, 32, 84, 111, 111, 32, 76, 97, 114, 103, 101]
  | 451 => some [85, 110, 97, 118, 97, 105, 108, 97, 98, 108, 101, 32, 70, 111, 114, 32, 76, 101, 103, 97, 108, 32, 82, 101, 97, 115, 111, 110, 115]
  | 500 => some [73, 110, 116, 101, 114, 110, 97, 108, 32, 83, 101, 114, 118, 101, 114, 32, 69, 114, 114, 111, 114]
  | 501 => some [78, 111, 116, 32, 73, 109, 112, 108, 101, 109, 101, 110, 116, 101, 100]
  | 502 => some [66, 97, 100, 32, 71, 97, 116, 101, 119, 97, 121]
  | 503 => some [83, 101, 114, 118, 105, 99, 101, 32, 85, 110, 97, 118, 97, 105, 108, 97, 98, 108, 101]
  | 504 => some [71, 97, 116, 101, 119, 97, 121, 32, 84, 105, 109, 101, 111, 117, 116]
  | 505 => some [72, 84, 84, 80, 32, 86, 101, 114, 115, 105, 111, 110, 32, 78, 111, 116, 32, 83, 117, 112, 112, 111, 114, 116, 101, 100]
  | 506 => some [86, 97, 114, 105, 97, 110, 116, 32, 65, 108, 115, 111, 32, 78, 101, 103, 111, 116, 105, 97, 116, 101, 115]
  | 507 => some [73, 110, 115, 117, 102, 102, 105, 99, 105, 101, 110, 116, 32, 83, 116, 111, 114, 97, 103, 101]
  | 508 => some [76, 111, 111, 112, 32, 68, 101, 116, 101, 99, 116, 101, 100]
  | 510 => some [78, 111, 116, 32, 69, 120, 116, 101, 110, 100, 101, 100]
  | 511 => some [78, 101, 116, 119, 111, 114, 107, 32, 65, 117, 116, 104, 101, 110, 116, 105, 99, 97, 116, 105, 111, 110, 32, 82, 101, 113, 117, 105, 114, 101, 100]
  | _ => none

/-- `BytesMut::put_slice`: append a byte slice to the buffer. -/
def put_slice (buf s : List Nat) : List Nat := buf ++ s

/-- An owned header map entry list: keys are the lowercase representations
`http::HeaderName` stores, values are byte strings.  The list is the map's
iteration order (the `http` crate iterates entries in insertion order). -/
abbrev HeaderMapL := List (List Nat × List Nat)

/-- The capacity `write_response` (`server/encoding.rs`) reserves in the
cleared buffer before serializing: the `HTTP_VERSION` prefix, the status
digits, the reason length (`reason.len() + 4` with a canonical reason, bare
`2` without), the fold `name.len + value.len + STATUS_TERMINATOR_LEN` over
the headers, and the final terminator length. -/
def write_response_reserve (status : Nat) (headers : HeaderMapL) : Nat :=
  let version_count := HTTP_VERSION.length
  let status_bytes_len := (statusAsStr status).length
  let reason_len :=
    match canonicalReason status with
    | some r => r.length + TERMINATOR_NO_HEADERS.length
    | none => TERMINATOR_WITH_HEADER.length
  let headers_len := headers.foldl
    (fun count nv => nv.1.length + nv.2.length + STATUS_TERMINATOR_LEN + count) 0
  let terminator_len :=
    if headers.isEmpty then TERMINATOR_NO_HEADERS.length
    else TERMINATOR_WITH_HEADER.length
  version_count + status_bytes_len + reason_len + headers_len + terminator_len

/-- The byte sequence `write_response` (`server/encoding.rs`) serializes
into the cleared buffer, `put_slice` by `put_slice` in source order: the
`HTTP_VERSION` prefix, the status digits, then with a canonical reason the
bytes of `format!(" {reason} \r\n")` and otherwise a bare `\r\n`, then for
each header `name`, `: `, the value and `\r\n`, then the optional body,
then `\r\n\r\n` with zero headers and a single `\r\n` otherwise. -/
def write_response_bytes (status : Nat) (headers : HeaderMapL)
    (body : Option (List Nat)) : List Nat :=
  let buf : List Nat := []
  let buf := put_slice buf HTTP_VERSION
  let buf := put_slice buf (statusAsStr status)
  let buf :=
    match canonicalReason status with
    | some reason => put_slice buf ([32] ++ reason ++ [32, 13, 10])
    | none => put_slice buf [13, 10]
  let buf := headers.foldl
    (fun buf nv =>
      put_slice (put_slice (put_slice buf (nv.1 ++ [58, 32])) nv.2) [13, 10]) buf
  let buf :=
    match body with
    | some b => put_slice buf b
    | none => buf
  if headers.isEmpty then put_slice buf TERMINATOR_NO_HEADERS
  else put_slice buf TERMINATOR_WITH_HEADER

/-- The lowercase normalization `http::HeaderName` parsing applies to a
header name (uppercase ASCII letters become lowercase). -/
def headerNameLower (name : List Nat) : List Nat := name.map toLowerByte

/-- `http::HeaderMap::insert` on the entry-list model: replace the value of
an existing key in place (last write wins), else append a new entry. -/
def headerMapInsert (m : HeaderMapL) (name value : List Nat) : HeaderMapL :=
  if m.any (fun nv => nv.1 == name) then
    m.map (fun nv => if nv.1 == name then (name, value) else nv)
  else m ++ [(name, value)]

/-- Lookup in the entry-list header map model (names are stored lowercase,
so the query key is matched exactly). -/
def headerMapGet (m : HeaderMapL) (name : List Nat) : Option (List Nat) :=
  Option.map (fun nv => nv.2) (m.find? (fun nv => nv.1 == name))

/-- Build a header map the way callers of `write_response` do: each name
passes through `http::HeaderName` construction, which lowercases it, and
the entries are inserted in order. -/
def headerMapBuild (entries : List (List Nat × List Nat)) : HeaderMapL :=
  entries.foldl (fun m nv => headerMapInsert m (headerNameLower nv.1) nv.2) []

/-- Whether a byte may appear in an `http::HeaderName` token:
letters (uppercase normalized later), digits, and the fifteen permitted
punctuation bytes. -/
def isTokenByte (b : Nat) : Bool :=
  (97 ≤ b && b ≤ 122) || (65 ≤ b && b ≤ 90) || (48 ≤ b && b ≤ 57) ||
  (b == 33 || b == 35 || b == 36 || b == 37 || b == 38 || b == 39 ||
   b == 42 || b == 43 || b == 45 || b == 46 || b == 94 || b == 95 ||
   b == 96 || b == 124 || b == 126)

/-- Whether a raw name parses as an `http::HeaderName` (nonempty, every
byte a token byte). -/
def isValidHeaderName (name : List Nat) : Bool :=
  !name.isEmpty && name.all isTokenByte

/-- Whether a byte may appear in an `http::HeaderValue`: visible bytes
from 32 up except DEL, plus horizontal tab. -/
def isValidHeaderValueByte (b : Nat) : Bool :=
  (32 ≤ b && b != 127) || b == 9

/-- The sequence `[0xEF, 0xBF, 0xBD]`: the UTF-8 encoding of the
replacement character emitted by lossy decoding. -/
def REPLACEMENT : List Nat := [239, 191, 189]

/-- Whether a byte is a UTF-8 continuation byte. -/
def isCont (b : Nat) : Bool := 128 ≤ b && b ≤ 191

/-- `String::from_utf8_lossy` on the byte level: well-formed UTF-8
sequences pass through unchanged and each maximal ill-formed subpart
becomes one replacement character. -/
def utf8Lossy : List Nat → List Nat
  | [] => []
  | b :: rest =>
    if b ≤ 127 then b :: utf8Lossy rest
    else if 194 ≤ b && b ≤ 223 then
      match rest with
      | [] => REPLACEMENT
      | b2 :: rest2 =>
        if isCont b2 then b :: b2 :: utf8Lossy rest2
        else REPLACEMENT ++ utf8Lossy (b2 :: rest2)
    else if 224 ≤ b && b ≤ 239 then
      match rest with
      | [] => REPLACEMENT
      | b2 :: rest2 =>
        let ok2 :=
          if b == 224 then 160 ≤ b2 && b2 ≤ 191
          else if b == 237 then 128 ≤ b2 && b2 ≤ 159
          else isCont b2
        if ok2 then
          match rest2 with
          | [] => REPLACEMENT
          | b3 :: rest3 =>
            if isCont b3 then b :: b2 :: b3 :: utf8Lossy rest3
            else REPLACEMENT ++ utf8Lossy (b3 :: rest3)
        else REPLACEMENT ++ utf8Lossy (b2 :: rest2)
    else if 240 ≤ b && b ≤ 244 then
      match rest with
      | [] => REPLACEMENT
      | b2 :: rest2 =>
        let ok2 :=
          if b == 240 then 144 ≤ b2 && b2 ≤ 191
          else if b == 244 then 128 ≤ b2 && b2 ≤ 143
          else isCont b2
        if ok2 then
          match rest2 with
          | [] => REPLACEMENT
          | b3 :: rest3 =>
            if isCont b3 then
              match rest3 with
              | [] => REPLACEMENT
              | b4 :: rest4 =>
                if isCont b4 then b :: b2 :: b3 :: b4 :: utf8Lossy rest4
                else REPLACEMENT ++ utf8Lossy (b4 :: rest4)
            else REPLACEMENT ++ utf8Lossy (b3 :: rest3)
        else REPLACEMENT ++ utf8Lossy (b2 :: rest2)
    else REPLACEMENT ++ utf8Lossy rest

/-- The diagnostic `format!("{}: {}", header.name, value)` built by the
header conversion in `handshake/mod.rs`: the raw name, a colon and space,
and the lossy-UTF8 rendering of the value. -/
def headerString (h : RawHeader) : List Nat :=
  h.name ++ [58, 32] ++ utf8Lossy h.value

/-- The loop body of `TryMap<HeaderMap> for &[httparse::Header]`
(`handshake/mod.rs`), with the accumulated owned map threaded explicitly:
each entry must have a valid header name (stored lowercased) and a valid
header value, else the conversion stops with `InvalidHeader` carrying the
diagnostic rendering of that entry; valid entries are inserted, so a
repeated name keeps the last value. -/
def tryMapHeadersAux : List RawHeader → HeaderMapL → Except (List Nat) HeaderMapL
  | [], acc => Except.ok acc
  | h :: rest, acc =>
    if !isValidHeaderName h.name then Except.error (headerString h)
    else if !h.value.all isValidHeaderValueByte then Except.error (headerString h)
    else tryMapHeadersAux rest (headerMapInsert acc (headerNameLower h.name) h.value)

/-- `TryMap<HeaderMap> for &[httparse::Header]` from `handshake/mod.rs`. -/
def tryMapHeaders (headers : List RawHeader) : Except (List Nat) HeaderMapL :=
  tryMapHeadersAux headers []

/-- The owned `crate::Request` (an `http::Request<()>`) as the handshake
code uses it: a method (`GET` for every request this code builds), a URI
and a header map; the body is the unit value. -/
structure Request where
  method : List Nat
  uri : List Nat
  headers : HeaderMapL
deriving DecidableEq

/-- `TryMap<Request> for &httparse::Request` from `handshake/mod.rs`:
an absent path is `HttpError::MalformattedUri(None)`; a present path is
parsed by the `http` crate URI parser (passed in as `parseUri`, with a
parse failure surfacing as a malformed-URI error); a header-conversion
failure is wrapped by the `?` conversion with its diagnostic unchanged.
The URI-parse failure mapping is modelled from the spec (the `From`
instances of `crate::HttpError` are not under `src/`). -/
def Request_try_map (parseUri : List Nat → Option (List Nat))
    (request : HttparseRequest) : Except HttpError Request :=
  match request.path with
  | none => Except.error (HttpError.malformattedUri none)
  | some path =>
    match parseUri path with
    | none => Except.error (HttpError.malformattedUri (some path))
    | some uri =>
      match tryMapHeaders request.headers with
      | Except.error d => Except.error (HttpError.invalidHeaderConv d)
      | Except.ok hm => Except.ok (Request.mk GET_UPPER uri hm)

/-- `slice::split` with a byte predicate: the subslices between matching
bytes, empty subslices included. -/
def splitByte (p : Nat → Bool) : List Nat → List (List Nat)
  | [] => [[]]
  | b :: rest =>
    if p b then [] :: splitByte p rest
    else
      match splitByte p rest with
      | t :: ts => (b :: t) :: ts
      | [] => [[b]]

/-- The closure `parse_request` passes to `validate_header` for the
`Connection` header (`server/encoding.rs`): split the value at every comma
or space byte and accept when some part equals `upgrade`
case-insensitively, else `HttpError::InvalidHeader`. -/
def connection_check (name value : List Nat) : Except Error Unit :=
  if (splitByte (fun c => c == 44 || c == 32) value).any
      (fun part => eqIgnoreCase part UPGRADE_STR) then
    Except.ok ()
  else
    Except.error (Error.http (HttpError.invalidHeader name))

/-- Trim ASCII spaces from both ends of a byte string. -/
def trimSpaces (s : List Nat) : List Nat :=
  ((s.dropWhile (fun b => b == 32)).reverse.dropWhile (fun b => b == 32)).reverse

/-- Modelled from the spec: the subprotocol negotiation of the
`subprotocols` module, which is not under `src/`.  Given the registry of
supported names and the request, take the offer list from the
`Sec-WebSocket-Protocol` header and select the first registry entry that
also appears in the offer (registry order is the tie-break); no match, or
no offer header, is no subprotocol, never an error. -/
def negotiate_request (registry : List (List Nat)) (request : HttparseRequest) :
    Except Error (Option (List Nat)) :=
  match findHeader request.headers SEC_WEBSOCKET_PROTOCOL_NAME with
  | none => Except.ok none
  | some h =>
    let offered := (splitByte (fun c => c == 44) h.value).map trimSpaces
    Except.ok (registry.find? (fun r => offered.any (fun o => o == r)))

/-- `crate::ext::NegotiatedExtension`: either no extension agreed or a
concrete negotiated extension instance, always present as a value. -/
inductive NegotiatedExtension (Ext : Type) where
  | noExtension
  | negotiated (e : Ext)
deriving DecidableEq

/-- The server-side `HandshakeResult` assembled by `parse_request`
(`server/encoding.rs`): the raw key bytes, the owned request, the
negotiated extension, the agreed subprotocol and the extension response
header. -/
structure HandshakeResult (Ext : Type) where
  key : List Nat
  request : Request
  extension : NegotiatedExtension Ext
  subprotocol : Option (List Nat)
  extension_header : Option (List Nat)
deriving DecidableEq

/-- `parse_request` from `server/encoding.rs`, in source order: HTTP
version must be `Some(1)`, method must be present and case-insensitively
`get`, then the `Connection`, `Upgrade`, `Sec-WebSocket-Version` and
`Host` rules run through `validate_header`, the raw `Sec-WebSocket-Key`
bytes are captured, the subprotocol is negotiated, the pluggable extension
provider (`negServer`, whose failure becomes an extension-kind error) runs,
and the raw request is converted to an owned one.  The first failure
aborts the whole decode. -/
def parse_request {Ext : Type}
    (negServer : List RawHeader → Except Unit (Option (Ext × List Nat)))
    (parseUri : List Nat → Option (List Nat))
    (subprotocols : List (List Nat)) (request : HttparseRequest) :
    Except Error (HandshakeResult Ext) :=
  match request.version with
  | some 1 =>
    (match request.method with
     | some m =>
       if eqIgnoreCase m METHOD_GET then Except.ok ()
       else Except.error (Error.http (HttpError.httpMethod (some m)))
     | none => Except.error (Error.http (HttpError.httpMethod none))).bind fun _ =>
    (validate_header request.headers CONNECTION_NAME connection_check).bind fun _ =>
    (validate_header_value request.headers UPGRADE_NAME WEBSOCKET_STR).bind fun _ =>
    (validate_header_value request.headers SEC_WEBSOCKET_VERSION_NAME
        WEBSOCKET_VERSION_STR).bind fun _ =>
    (validate_header request.headers HOST_NAME (fun _ _ => Except.ok ())).bind fun _ =>
    (get_header request.headers SEC_WEBSOCKET_KEY_NAME).bind fun key =>
    (negotiate_request subprotocols request).bind fun subprotocol =>
    (Except.mapError (fun _ => Error.extensionErr)
        (negServer request.headers)).bind fun extension_opt =>
    let ext_pair :=
      match extension_opt with
      | some (e, header) => (NegotiatedExtension.negotiated e, some header)
      | none => (NegotiatedExtension.noExtension, none)
    (Except.mapError Error.http (Request_try_map parseUri request)).bind fun owned =>
    Except.ok (HandshakeResult.mk key owned ext_pair.1 subprotocol ext_pair.2)
  | v => Except.error (Error.http (HttpError.httpVersion v))

/-- `check_partial_request` from `server/encoding.rs` (the fast-fail check
on a partially parsed fragment): a parsed version other than `1` is an
immediate HTTP-version error, a parsed method other than case-insensitive
`get` is an immediate HTTP-method error, and an absent version or method
is fine at this stage. -/
def check_incomplete_request (request : HttparseRequest) : Except Error Unit :=
  (match request.version with
   | some 1 => Except.ok ()
   | none => Except.ok ()
   | some v => Except.error (Error.http (HttpError.httpVersion (some v)))).bind fun _ =>
  match request.method with
  | some m =>
    if eqIgnoreCase m METHOD_GET then Except.ok ()
    else Except.error (Error.http (HttpError.httpMethod (some m)))
  | none => Except.ok ()

/-- The outcome of the `httparse` byte parser inside
`RequestParser::decode`: a syntactically complete request with its
consumed-byte count, a partial parse leaving the fragment seen so far, or
a syntax failure. -/
inductive ParseOutcome where
  | complete (request : HttparseRequest) (count : Nat)
  | incomplete (fragment : HttparseRequest)
  | failed

/-- `RequestParser::decode` composed with `try_parse_request`
(`server/encoding.rs`), over the outcome of the byte parser: a complete
parse runs `parse_request` and yields the result with the consumed count,
a partial parse runs the fast-fail check and yields `none` (more bytes
needed), and a syntax failure is converted into an error. -/
def RequestParser_decode {Ext : Type}
    (negServer : List RawHeader → Except Unit (Option (Ext × List Nat)))
    (parseUri : List Nat → Option (List Nat))
    (subprotocols : List (List Nat)) (outcome : ParseOutcome) :
    Except Error (Option (HandshakeResult Ext × Nat)) :=
  match outcome with
  | ParseOutcome.complete request count =>
    Except.map (fun r => some (r, count))
      (parse_request negServer parseUri subprotocols request)
  | ParseOutcome.incomplete fragment =>
    Except.map (fun _ => none) (check_incomplete_request fragment)
  | ParseOutcome.failed => Except.error Error.httparseFailed

/-- `StreamingParser::parse` from `handshake/mod.rs`, over the sequence of
chunks successive `io.read()` calls append to the buffer: after each read
the decode step sees the whole accumulated buffer; a decoded value stops
the loop, advances the buffer cursor by the reported consumed count
(dropping that many bytes) and returns the value with the remaining
buffer; a `none` decode continues the loop; a decode error stops the loop
with that error.  An exhausted chunk list means the loop is still
waiting for more bytes. -/
def streamingParse {O : Type} (decode : List Nat → Except Error (Option (O × Nat))) :
    List (List Nat) → List Nat → Option (Except Error (O × List Nat))
  | [], _ => none
  | d :: rest, buf =>
    let buf2 := buf ++ d
    match decode buf2 with
    | Except.ok (some (out, count)) => some (Except.ok (out, buf2.drop count))
    | Except.ok none => streamingParse decode rest buf2
    | Except.error e => some (Except.error e)

/-- `TryIntoRequest for Request` (`handshake/mod.rs`): a pre-built request
passes through unchanged. -/
def Request_try_into_request (r : Request) : Except Error Request :=
  Except.ok r

/-- `TryIntoRequest for Uri` (`handshake/mod.rs`):
`Request::get(self).body(())`, a GET request at the URI with the empty
body and no headers. -/
def Uri_try_into_request (u : List Nat) : Except Error Request :=
  Except.ok (Request.mk GET_UPPER u [])

/-- `TryIntoRequest for &str` (`handshake/mod.rs`): parse the string as a
URI with the `http` crate parser (`parseUri`, an external collaborator
whose failure carries the underlying URI-parse error) and convert the
URI. -/
def str_try_into_request (parseUri : List Nat → Except Error (List Nat))
    (s : List Nat) : Except Error Request :=
  (parseUri s).bind fun u => Uri_try_into_request u

/-- `TryIntoRequest for Url` (`handshake/mod.rs`): the URL is rendered
with `as_str` (a `url::Url` is modelled by that rendering) and the string
conversion runs on it. -/
def Url_try_into_request (parseUri : List Nat → Except Error (List Nat))
    (url : List Nat) : Except Error Request :=
  str_try_into_request parseUri url

/-- The last header of the list whose name equals `name`
case-insensitively (used to state last-write-wins properties). -/
def lastMatch (headers : List RawHeader) (name : List Nat) : Option RawHeader :=
  match headers with
  | [] => none
  | h :: rest =>
    match lastMatch rest name with
    | some r => some r
    | none => if eqIgnoreCase h.name name then some h else none

theorem hdr_fold_eq (hs : HeaderMapL) (buf : List Nat) :
    hs.foldl (fun b nv =>
        put_slice (put_slice (put_slice b (nv.1 ++ [58, 32])) nv.2) [13, 10]) buf =
      buf ++ (hs.map (fun nv => nv.1 ++ [58, 32] ++ nv.2 ++ [13, 10])).flatten := by
  induction hs generalizing buf with
  | nil => simp
  | cons h t ih =>
    rw [List.foldl_cons, ih]
    simp [put_slice, List.append_assoc]

/-- The total length of the names and values of a header map
(a helper for stating serialized-length facts). -/
def pairLenSum (hs : HeaderMapL) : Nat :=
  hs.foldr (fun nv acc => nv.1.length + nv.2.length + acc) 0

theorem reserve_fold_eq (hs : HeaderMapL) (a : Nat) :
    hs.foldl (fun count nv => nv.1.length + nv.2.length + STATUS_TERMINATOR_LEN + count) a =
      a + pairLenSum hs + 2 * hs.length := by
  induction hs generalizing a with
  | nil => simp [pairLenSum]
  | cons h t ih =>
    rw [List.foldl_cons, ih]
    simp [pairLenSum, STATUS_TERMINATOR_LEN]
    omega

theorem flatten_render_len (hs : HeaderMapL) :
    ((hs.map (fun nv => nv.1 ++ 58 :: 32 :: (nv.2 ++ [13, 10]))).flatten).length =
      pairLenSum hs + 4 * hs.length := by
  induction hs with
  | nil => simp [pairLenSum]
  | cons h t ih =>
    simp [pairLenSum, -List.length_flatten] at ih ⊢
    simp [ih]
    omega

/-- C3 counterexample: for status `101` with the single header
`upgrade: websocket` and no body, `write_response` reserves 55 bytes but
writes 57, so the claimed equality of the reservation and the written byte
count fails at this input. -/
theorem c3_reserve_not_exact :
    write_response_reserve 101 [(UPGRADE_NAME, WEBSOCKET_STR)] ≠
      (write_response_bytes 101 [(UPGRADE_NAME, WEBSOCKET_STR)] none).length := by
  decide

/-- C3 amended: the number of bytes written by `write_response` exceeds the
reserved capacity estimate by exactly two bytes per header (the estimate
counts `name + value + 2` per header while `Name: value\r\n` renders as
`name + value + 4`) plus the body length (the estimate ignores the body);
in particular the estimate is exact only with no headers and no body. -/
theorem c3_reserve_undercount (status : Nat) (hs : HeaderMapL)
    (body : Option (List Nat)) :
    (write_response_bytes status hs body).length =
      write_response_reserve status hs + 2 * hs.length +
        (match body with | some b => b.length | none => 0) := by
  simp only [write_response_bytes, write_response_reserve]
  rw [hdr_fold_eq, reserve_fold_eq]
  cases body <;> cases hcr : canonicalReason status <;> cases hemp : hs.isEmpty <;>
    simp [put_slice, TERMINATOR_NO_HEADERS, TERMINATOR_WITH_HEADER,
      STATUS_TERMINATOR_LEN, flatten_render_len, -List.length_flatten] <;>
    ring

/-- The upgrade-response header map of the claimed scenario, built the only
way an `http::HeaderMap` can be: each name (written `Upgrade`,
`Connection`, `Sec-WebSocket-Accept` in the claim) is normalized to
lowercase by `http::HeaderName` construction before insertion. -/
def upgradeResponseHeaders (v : List Nat) : HeaderMapL :=
  headerMapBuild
    [([85, 112, 103, 114, 97, 100, 101], WEBSOCKET_STR),
     ([67, 111, 110, 110, 101, 99, 116, 105, 111, 110], [85, 112, 103, 114, 97, 100, 101]),
     ([83, 101, 99, 45, 87, 101, 98, 83, 111, 99, 107, 101, 116, 45, 65, 99, 99, 101, 112, 116], v)]

/-- C4 counterexample: serializing status `101` with the claimed header
map and no body does not produce the claimed bytes with capitalized
header names (`Upgrade: websocket`, `Connection: Upgrade`,
`Sec-WebSocket-Accept: A`), because `http::HeaderName` stores and renders
every name in lowercase. -/
theorem c4_names_not_capitalized :
    write_response_bytes 101 (upgradeResponseHeaders [65]) none ≠
      [72, 84, 84, 80, 47, 49, 46, 49, 32, 49, 48, 49, 32, 83, 119, 105, 116, 99,
       104, 105, 110, 103, 32, 80, 114, 111, 116, 111, 99, 111, 108, 115, 32, 13,
       10, 85, 112, 103, 114, 97, 100, 101, 58, 32, 119, 101, 98, 115, 111, 99,
       107, 101, 116, 13, 10, 67, 111, 110, 110, 101, 99, 116, 105, 111, 110, 58,
       32, 85, 112, 103, 114, 97, 100, 101, 13, 10, 83, 101, 99, 45, 87, 101, 98,
       83, 111, 99, 107, 101, 116, 45, 65, 99, 99, 101, 112, 116, 58, 32, 65, 13,
       10, 13, 10] := by
  decide

/-- C4 amended: with status `101`, the claimed header map and no body,
`write_response` serializes exactly
`HTTP/1.1 101 Switching Protocols \r\n` followed by
`upgrade: websocket\r\n`, `connection: Upgrade\r\n` and
`sec-websocket-accept: ` with the accept value and `\r\n`, then the single
final `\r\n` (header names rendered lowercase, values byte for byte);
and for a status with no canonical reason and zero headers, the status
line falls back to a bare `\r\n` and the final terminator is `\r\n\r\n`. -/
theorem c4_response_bytes (v : List Nat) :
    write_response_bytes 101 (upgradeResponseHeaders v) none =
      [72, 84, 84, 80, 47, 49, 46, 49, 32, 49, 48, 49, 32, 83, 119, 105, 116, 99,
       104, 105, 110, 103, 32, 80, 114, 111, 116, 111, 99, 111, 108, 115, 32, 13,
       10, 117, 112, 103, 114, 97, 100, 101, 58, 32, 119, 101, 98, 115, 111, 99,
       107, 101, 116, 13, 10, 99, 111, 110, 110, 101, 99, 116, 105, 111, 110, 58,
       32, 85, 112, 103, 114, 97, 100, 101, 13, 10, 115, 101, 99, 45, 119, 101,
       98, 115, 111, 99, 107, 101, 116, 45, 97, 99, 99, 101, 112, 116, 58, 32] ++
        v ++ [13, 10, 13, 10] ∧
    write_response_bytes 599 [] none =
      HTTP_VERSION ++ statusAsStr 599 ++ [13, 10] ++ [13, 10, 13, 10] := by
  constructor
  · rw [show write_response_bytes 101 (upgradeResponseHeaders v) none =
        (([72, 84, 84, 80, 47, 49, 46, 49, 32, 49, 48, 49, 32, 83, 119, 105, 116,
           99, 104, 105, 110, 103, 32, 80, 114, 111, 116, 111, 99, 111, 108, 115,
           32, 13, 10, 117, 112, 103, 114, 97, 100, 101, 58, 32, 119, 101, 98,
           115, 111, 99, 107, 101, 116, 13, 10, 99, 111, 110, 110, 101, 99, 116,
           105, 111, 110, 58, 32, 85, 112, 103, 114, 97, 100, 101, 13, 10, 115,
           101, 99, 45, 119, 101, 98, 115, 111, 99, 107, 101, 116, 45, 97, 99,
           99, 101, 112, 116, 58, 32] ++ v) ++ [13, 10]) ++ [13, 10] from rfl]
    try simp [List.append_assoc]
  · rw [show write_response_bytes 599 [] none =
        ((HTTP_VERSION ++ statusAsStr 599) ++ [13, 10]) ++ [13, 10, 13, 10] from rfl]
    try simp [List.append_assoc]

/-- C6: the Connection rule of `parse_request`.  With no Connection header
(case-insensitive lookup) the result is a missing-header error naming
Connection; with one, validation succeeds exactly when some part of the
value split at every comma or space byte equals `upgrade`
case-insensitively, and otherwise fails with an invalid-header error
naming Connection. -/
theorem c6_connection_rule (hs : List RawHeader) :
    (findHeader hs CONNECTION_NAME = none →
      validate_header hs CONNECTION_NAME connection_check =
        Except.error (Error.http (HttpError.missingHeader CONNECTION_NAME))) ∧
    (∀ h, findHeader hs CONNECTION_NAME = some h →
      ((validate_header hs CONNECTION_NAME connection_check = Except.ok ()) ↔
        ∃ part ∈ splitByte (fun c => c == 44 || c == 32) h.value,
          eqIgnoreCase part UPGRADE_STR = true) ∧
      ((¬ ∃ part ∈ splitByte (fun c => c == 44 || c == 32) h.value,
          eqIgnoreCase part UPGRADE_STR = true) →
        validate_header hs CONNECTION_NAME connection_check =
          Except.error (Error.http (HttpError.invalidHeader CONNECTION_NAME)))) := by
  constructor
  · intro hnone
    simp [validate_header, hnone]
  · intro h hsome
    have hv : validate_header hs CONNECTION_NAME connection_check =
        connection_check CONNECTION_NAME h.value := by
      simp [validate_header, hsome]
    rw [hv]
    unfold connection_check
    cases hany : (splitByte (fun c => c == 44 || c == 32) h.value).any
        (fun part => eqIgnoreCase part UPGRADE_STR)
    · rw [List.any_eq_false] at hany
      constructor
      · simp
        intro part hmem
        simpa using hany part hmem
      · intro _
        simp
    · rw [List.any_eq_true] at hany
      constructor
      · simp
        exact hany
      · intro hno
        exact absurd hany hno

/-- C6 witness: the empty header list has no Connection header, and the
rule reports the missing Connection header. -/
theorem c6_connection_rule_witness :
    validate_header [] CONNECTION_NAME connection_check =
      Except.error (Error.http (HttpError.missingHeader CONNECTION_NAME)) :=
  (c6_connection_rule []).1 rfl

/-- Rule 2 of the validation order as a predicate: the method is present
and case-insensitively `get`. -/
def methodOk (r : HttparseRequest) : Bool :=
  match r.method with
  | some m => eqIgnoreCase m METHOD_GET
  | none => false

/-- Rule 3 as a predicate: a Connection header is found and some
comma-or-space-separated part of its value is `upgrade`
case-insensitively. -/
def connectionOk (r : HttparseRequest) : Bool :=
  match findHeader r.headers CONNECTION_NAME with
  | some h => (splitByte (fun c => c == 44 || c == 32) h.value).any
      (fun part => eqIgnoreCase part UPGRADE_STR)
  | none => false

/-- Rule 4 as a predicate: an Upgrade header is found with value
case-insensitively `websocket`. -/
def upgradeOk (r : HttparseRequest) : Bool :=
  match findHeader r.headers UPGRADE_NAME with
  | some h => eqIgnoreCase h.value WEBSOCKET_STR
  | none => false

/-- Rule 5 as a predicate: a Sec-WebSocket-Version header is found with
value `13` (the case-insensitive comparison is vacuous on digits). -/
def versionHeaderOk (r : HttparseRequest) : Bool :=
  match findHeader r.headers SEC_WEBSOCKET_VERSION_NAME with
  | some h => eqIgnoreCase h.value WEBSOCKET_VERSION_STR
  | none => false

/-- Rule 6 as a predicate: a Host header is present (value unchecked). -/
def hostPresent (r : HttparseRequest) : Bool :=
  (findHeader r.headers HOST_NAME).isSome

theorem methodOk_true {r : HttparseRequest} (h : methodOk r = true) :
    ∃ m, r.method = some m ∧ eqIgnoreCase m METHOD_GET = true := by
  unfold methodOk at h
  cases hm : r.method with
  | none => rw [hm] at h; exact absurd h (by simp)
  | some m => rw [hm] at h; exact ⟨m, rfl, h⟩

theorem connectionOk_true {r : HttparseRequest} (h : connectionOk r = true) :
    ∃ hd, findHeader r.headers CONNECTION_NAME = some hd ∧
      (splitByte (fun c => c == 44 || c == 32) hd.value).any
        (fun part => eqIgnoreCase part UPGRADE_STR) = true := by
  unfold connectionOk at h
  cases hf : findHeader r.headers CONNECTION_NAME with
  | none => rw [hf] at h; exact absurd h (by simp)
  | some hd => rw [hf] at h; exact ⟨hd, rfl, h⟩

theorem upgradeOk_true {r : HttparseRequest} (h : upgradeOk r = true) :
    ∃ hd, findHeader r.headers UPGRADE_NAME = some hd ∧
      eqIgnoreCase hd.value WEBSOCKET_STR = true := by
  unfold upgradeOk at h
  cases hf : findHeader r.headers UPGRADE_NAME with
  | none => rw [hf] at h; exact absurd h (by simp)
  | some hd => rw [hf] at h; exact ⟨hd, rfl, h⟩

theorem versionHeaderOk_true {r : HttparseRequest} (h : versionHeaderOk r = true) :
    ∃ hd, findHeader r.headers SEC_WEBSOCKET_VERSION_NAME = some hd ∧
      eqIgnoreCase hd.value WEBSOCKET_VERSION_STR = true := by
  unfold versionHeaderOk at h
  cases hf : findHeader r.headers SEC_WEBSOCKET_VERSION_NAME with
  | none => rw [hf] at h; exact absurd h (by simp)
  | some hd => rw [hf] at h; exact ⟨hd, rfl, h⟩

theorem hostPresent_true {r : HttparseRequest} (h : hostPresent r = true) :
    ∃ hd, findHeader r.headers HOST_NAME = some hd := by
  unfold hostPresent at h
  cases hf : findHeader r.headers HOST_NAME with
  | none => rw [hf] at h; exact absurd h (by simp)
  | some hd => exact ⟨hd, rfl⟩

/-- C2: `parse_request` applies the validation rules in the fixed order
version, method, Connection, Upgrade, Sec-WebSocket-Version, Host,
Sec-WebSocket-Key, and returns exactly the error of the first failing
rule — a missing-header error when the rule's header is absent, an
invalid-header error when its value is wrong, each naming the offending
header, method or version — regardless of anything later in the request,
so later rules are never evaluated and no multi-error result exists. -/
theorem c2_validation_order {Ext : Type}
    (negServer : List RawHeader → Except Unit (Option (Ext × List Nat)))
    (parseUri : List Nat → Option (List Nat))
    (reg : List (List Nat)) (r : HttparseRequest) :
    (r.version ≠ some 1 →
      parse_request negServer parseUri reg r =
        Except.error (Error.http (HttpError.httpVersion r.version))) ∧
    (r.version = some 1 → methodOk r = false →
      parse_request negServer parseUri reg r =
        Except.error (Error.http (HttpError.httpMethod r.method))) ∧
    (r.version = some 1 → methodOk r = true →
      findHeader r.headers CONNECTION_NAME = none →
      parse_request negServer parseUri reg r =
        Except.error (Error.http (HttpError.missingHeader CONNECTION_NAME))) ∧
    (r.version = some 1 → methodOk r = true →
      ∀ hd, findHeader r.headers CONNECTION_NAME = some hd →
      (splitByte (fun c => c == 44 || c == 32) hd.value).any
        (fun part => eqIgnoreCase part UPGRADE_STR) = false →
      parse_request negServer parseUri reg r =
        Except.error (Error.http (HttpError.invalidHeader CONNECTION_NAME))) ∧
    (r.version = some 1 → methodOk r = true → connectionOk r = true →
      findHeader r.headers UPGRADE_NAME = none →
      parse_request negServer parseUri reg r =
        Except.error (Error.http (HttpError.missingHeader UPGRADE_NAME))) ∧
    (r.version = some 1 → methodOk r = true → connectionOk r = true →
      ∀ hd, findHeader r.headers UPGRADE_NAME = some hd →
      eqIgnoreCase hd.value WEBSOCKET_STR = false →
      parse_request negServer parseUri reg r =
        Except.error (Error.http (HttpError.invalidHeader UPGRADE_NAME))) ∧
    (r.version = some 1 → methodOk r = true → connectionOk r = true →
      upgradeOk r = true →
      findHeader r.headers SEC_WEBSOCKET_VERSION_NAME = none →
      parse_request negServer parseUri reg r =
        Except.error (Error.http (HttpError.missingHeader SEC_WEBSOCKET_VERSION_NAME))) ∧
    (r.version = some 1 → methodOk r = true → connectionOk r = true →
      upgradeOk r = true →
      ∀ hd, findHeader r.headers SEC_WEBSOCKET_VERSION_NAME = some hd →
      eqIgnoreCase hd.value WEBSOCKET_VERSION_STR = false →
      parse_request negServer parseUri reg r =
        Except.error (Error.http (HttpError.invalidHeader SEC_WEBSOCKET_VERSION_NAME))) ∧
    (r.version = some 1 → methodOk r = true → connectionOk r = true →
      upgradeOk r = true → versionHeaderOk r = true →
      findHeader r.headers HOST_NAME = none →
      parse_request negServer parseUri reg r =
        Except.error (Error.http (HttpError.missingHeader HOST_NAME))) ∧
    (r.version = some 1 → methodOk r = true → connectionOk r = true →
      upgradeOk r = true → versionHeaderOk r = true → hostPresent r = true →
      findHeader r.headers SEC_WEBSOCKET_KEY_NAME = none →
      parse_request negServer parseUri reg r =
        Except.error (Error.http (HttpError.missingHeader SEC_WEBSOCKET_KEY_NAME))) := by
  refine ⟨?_, ?_, ?_, ?_, ?_, ?_, ?_, ?_, ?_, ?_⟩
  · intro hv
    unfold parse_request
    split
    · rename_i heq
      exact absurd heq hv
    · rfl
  · intro hv hm
    unfold parse_request
    rw [hv]
    cases hme : r.method with
    | none => simp [Except.bind]
    | some m =>
      unfold methodOk at hm
      rw [hme] at hm
      simp at hm
      simp [hm, Except.bind]
  · intro hv hm hc
    obtain ⟨m, hme, hmg⟩ := methodOk_true hm
    unfold parse_request
    rw [hv, hme]
    simp [hmg, validate_header, hc, Except.bind]
  · intro hv hm hd hcf hany
    obtain ⟨m, hme, hmg⟩ := methodOk_true hm
    unfold parse_request
    rw [hv, hme]
    simp [hmg, validate_header, hcf, connection_check, hany, Except.bind]
  · intro hv hm hc hu
    obtain ⟨m, hme, hmg⟩ := methodOk_true hm
    obtain ⟨cd, hcf, hany⟩ := connectionOk_true hc
    unfold parse_request
    rw [hv, hme]
    simp [hmg, validate_header, validate_header_value, hcf, connection_check,
      hany, hu, Except.bind]
  · intro hv hm hc hd huf hval
    obtain ⟨m, hme, hmg⟩ := methodOk_true hm
    obtain ⟨cd, hcf, hany⟩ := connectionOk_true hc
    unfold parse_request
    rw [hv, hme]
    simp [hmg, validate_header, validate_header_value, hcf, connection_check,
      hany, huf, hval, Except.bind]
  · intro hv hm hc hup hw
    obtain ⟨m, hme, hmg⟩ := methodOk_true hm
    obtain ⟨cd, hcf, hany⟩ := connectionOk_true hc
    obtain ⟨ud, huf, huv⟩ := upgradeOk_true hup
    unfold parse_request
    rw [hv, hme]
    simp [hmg, validate_header, validate_header_value, hcf, connection_check,
      hany, huf, huv, hw, Except.bind]
  · intro hv hm hc hup hd hwf hval
    obtain ⟨m, hme, hmg⟩ := methodOk_true hm
    obtain ⟨cd, hcf, hany⟩ := connectionOk_true hc
    obtain ⟨ud, huf, huv⟩ := upgradeOk_true hup
    unfold parse_request
    rw [hv, hme]
    simp [hmg, validate_header, validate_header_value, hcf, connection_check,
      hany, huf, huv, hwf, hval, Except.bind]
  · intro hv hm hc hup hver hh
    obtain ⟨m, hme, hmg⟩ := methodOk_true hm
    obtain ⟨cd, hcf, hany⟩ := connectionOk_true hc
    obtain ⟨ud, huf, huv⟩ := upgradeOk_true hup
    obtain ⟨vd, hvf, hvv⟩ := versionHeaderOk_true hver
    unfold parse_request
    rw [hv, hme]
    simp [hmg, validate_header, validate_header_value, hcf, connection_check,
      hany, huf, huv, hvf, hvv, hh, Except.bind]
  · intro hv hm hc hup hver hho hk
    obtain ⟨m, hme, hmg⟩ := methodOk_true hm
    obtain ⟨cd, hcf, hany⟩ := connectionOk_true hc
    obtain ⟨ud, huf, huv⟩ := upgradeOk_true hup
    obtain ⟨vd, hvf, hvv⟩ := versionHeaderOk_true hver
    obtain ⟨hd, hhf⟩ := hostPresent_true hho
    unfold parse_request
    rw [hv, hme]
    simp [hmg, validate_header, validate_header_value, get_header, hcf,
      connection_check, hany, huf, huv, hvf, hvv, hhf, hk, Except.bind]

/-- C2 witness: a request whose parsed version is `0` is rejected with the
HTTP-version error naming that version, whatever else it contains. -/
theorem c2_validation_order_witness :
    @parse_request Unit (fun _ => Except.ok none) (fun p => some p) []
      (HttparseRequest.mk none none (some 0) []) =
      Except.error (Error.http (HttpError.httpVersion (some 0))) :=
  (c2_validation_order (fun _ => Except.ok none) (fun p => some p) []
    (HttparseRequest.mk none none (some 0) [])).1 (by decide)

theorem tryMapHeadersAux_ok (hs : List RawHeader) :
    ∀ acc, (∀ h ∈ hs, isValidHeaderName h.name = true ∧
        h.value.all isValidHeaderValueByte = true) →
      ∃ m, tryMapHeadersAux hs acc = Except.ok m := by
  induction hs with
  | nil => intro acc _; exact ⟨acc, rfl⟩
  | cons h t ih =>
    intro acc hvalid
    have hh := hvalid h (List.mem_cons_self h t)
    have ht : ∀ g ∈ t, isValidHeaderName g.name = true ∧
        g.value.all isValidHeaderValueByte = true :=
      fun g hg => hvalid g (List.mem_cons_of_mem h hg)
    obtain ⟨m, hm⟩ := ih (headerMapInsert acc (headerNameLower h.name) h.value) ht
    refine ⟨m, ?_⟩
    unfold tryMapHeadersAux
    simp [hh.1, hh.2]
    exact hm

theorem negotiate_request_ok (reg : List (List Nat)) (r : HttparseRequest) :
    ∃ s, negotiate_request reg r = Except.ok s := by
  unfold negotiate_request
  cases findHeader r.headers SEC_WEBSOCKET_PROTOCOL_NAME with
  | none => exact ⟨none, rfl⟩
  | some h => exact ⟨_, rfl⟩

theorem Request_try_map_ok (parseUri : List Nat → Option (List Nat))
    (r : HttparseRequest) (p u : List Nat)
    (hpath : r.path = some p) (hu : parseUri p = some u)
    (hvalid : ∀ h ∈ r.headers, isValidHeaderName h.name = true ∧
      h.value.all isValidHeaderValueByte = true) :
    ∃ hm, Request_try_map parseUri r = Except.ok (Request.mk GET_UPPER u hm) := by
  obtain ⟨m, hmap⟩ := tryMapHeadersAux_ok r.headers [] hvalid
  refine ⟨m, ?_⟩
  unfold Request_try_map tryMapHeaders
  simp [hpath, hu, hmap]

/-- C1: for a syntactically complete request (path present, every header
name and value valid for the owned conversion) that satisfies all the
upgrade validation rules — version 1.1, method case-insensitively GET,
Connection containing the token upgrade, Upgrade equal websocket
case-insensitively, Sec-WebSocket-Version 13, Host present — and whose
first Sec-WebSocket-Key header is `kh`, `parse_request` succeeds (for any
extension provider outcome that is not an error) and the `key` field of
the returned `HandshakeResult` is exactly the raw value bytes of that
header. -/
theorem c1_key_capture {Ext : Type}
    (negServer : List RawHeader → Except Unit (Option (Ext × List Nat)))
    (parseUri : List Nat → Option (List Nat))
    (reg : List (List Nat)) (r : HttparseRequest)
    (kh : RawHeader) (p u : List Nat) (extOpt : Option (Ext × List Nat))
    (hv : r.version = some 1) (hm : methodOk r = true)
    (hc : connectionOk r = true) (hup : upgradeOk r = true)
    (hver : versionHeaderOk r = true) (hho : hostPresent r = true)
    (hk : findHeader r.headers SEC_WEBSOCKET_KEY_NAME = some kh)
    (hpath : r.path = some p) (hu : parseUri p = some u)
    (hvalid : ∀ h ∈ r.headers, isValidHeaderName h.name = true ∧
      h.value.all isValidHeaderValueByte = true)
    (hext : negServer r.headers = Except.ok extOpt) :
    Except.map HandshakeResult.key (parse_request negServer parseUri reg r) =
      Except.ok kh.value := by
  obtain ⟨m, hme, hmg⟩ := methodOk_true hm
  obtain ⟨cd, hcf, hany⟩ := connectionOk_true hc
  obtain ⟨ud, huf, huv⟩ := upgradeOk_true hup
  obtain ⟨vd, hvf, hvv⟩ := versionHeaderOk_true hver
  obtain ⟨hd, hhf⟩ := hostPresent_true hho
  obtain ⟨s, hneg⟩ := negotiate_request_ok reg r
  obtain ⟨hmap, htm⟩ := Request_try_map_ok parseUri r p u hpath hu hvalid
  unfold parse_request
  rw [hv, hme]
  cases extOpt with
  | none =>
    simp [hmg, validate_header, validate_header_value, get_header, hcf,
      connection_check, hany, huf, huv, hvf, hvv, hhf, hk, hneg, hext, htm,
      Except.bind, Except.map, Except.mapError]
  | some pair =>
    simp [hmg, validate_header, validate_header_value, get_header, hcf,
      connection_check, hany, huf, huv, hvf, hvv, hhf, hk, hneg, hext, htm,
      Except.bind, Except.map, Except.mapError]

/-- C1 witness: a fully valid concrete upgrade request with key bytes
`abc` decodes to a handshake result whose key is `abc`. -/
theorem c1_key_capture_witness :
    Except.map HandshakeResult.key
      (@parse_request Unit (fun _ => Except.ok none) (fun q => some q) []
        (HttparseRequest.mk (some [71, 69, 84]) (some [47]) (some 1)
          [RawHeader.mk [72, 111, 115, 116] [101, 120],
           RawHeader.mk [67, 111, 110, 110, 101, 99, 116, 105, 111, 110]
             [85, 112, 103, 114, 97, 100, 101],
           RawHeader.mk [85, 112, 103, 114, 97, 100, 101] WEBSOCKET_STR,
           RawHeader.mk SEC_WEBSOCKET_VERSION_NAME WEBSOCKET_VERSION_STR,
           RawHeader.mk [83, 101, 99, 45, 87, 101, 98, 83, 111, 99, 107, 101,
             116, 45, 75, 101, 121] [97, 98, 99]])) =
      Except.ok [97, 98, 99] :=
  c1_key_capture (fun _ => Except.ok none) (fun q => some q) []
    (HttparseRequest.mk (some [71, 69, 84]) (some [47]) (some 1)
      [RawHeader.mk [72, 111, 115, 116] [101, 120],
       RawHeader.mk [67, 111, 110, 110, 101, 99, 116, 105, 111, 110]
         [85, 112, 103, 114, 97, 100, 101],
       RawHeader.mk [85, 112, 103, 114, 97, 100, 101] WEBSOCKET_STR,
       RawHeader.mk SEC_WEBSOCKET_VERSION_NAME WEBSOCKET_VERSION_STR,
       RawHeader.mk [83, 101, 99, 45, 87, 101, 98, 83, 111, 99, 107, 101, 116,
         45, 75, 101, 121] [97, 98, 99]])
    (RawHeader.mk [83, 101, 99, 45, 87, 101, 98, 83, 111, 99, 107, 101, 116,
      45, 75, 101, 121] [97, 98, 99])
    [47] [47] none (by decide) (by decide) (by decide) (by decide) (by decide)
    (by decide) (by decide) (by decide) (by decide) (by decide) rfl

theorem find_map_replace_ne (t : HeaderMapL) (k v q : List Nat) (h : q ≠ k) :
    (t.map (fun nv => if nv.1 == k then (k, v) else nv)).find?
        (fun nv => nv.1 == q) =
      t.find? (fun nv => nv.1 == q) := by
  induction t with
  | nil => rfl
  | cons a s ih =>
    by_cases hak : a.1 = k
    · simp only [List.map_cons, List.find?]
      rw [if_pos (by simpa using hak)]
      have h1 : (k == q) = false := by
        simp
        exact fun hq => h hq.symm
      have h2 : (a.1 == q) = false := by
        rw [hak]
        exact h1
      simp only [h1, h2]
      exact ih
    · simp only [List.map_cons, List.find?]
      rw [if_neg (by simpa using hak)]
      cases haq : (a.1 == q) with
      | true => rfl
      | false => exact ih

theorem headerMapGet_insert (m : HeaderMapL) (k v q : List Nat) :
    headerMapGet (headerMapInsert m k v) q =
      if q = k then some v else headerMapGet m q := by
  induction m with
  | nil =>
    by_cases hqk : q = k
    · simp [headerMapGet, headerMapInsert, List.find?, hqk]
    · have h1 : (k == q) = false := by
        simp
        exact fun hq => hqk hq.symm
      simp [headerMapGet, headerMapInsert, List.find?, h1, hqk]
  | cons a t ih =>
    by_cases hak : a.1 = k
    · have hany : (a :: t).any (fun nv => nv.1 == k) = true := by
        simp [hak]
      unfold headerMapInsert
      rw [hany]
      simp only [if_true]
      by_cases hqk : q = k
      · subst hqk
        simp only [headerMapGet, List.map_cons, List.find?]
        rw [if_pos (by simpa using hak)]
        simp
      · simp only [headerMapGet, List.map_cons, List.find?]
        rw [if_pos (by simpa using hak)]
        have h1 : (k == q) = false := by
          simp
          exact fun hq => hqk hq.symm
        have h2 : (a.1 == q) = false := by
          simp [hak]
          exact fun hq => hqk hq.symm
        simp only [h1, if_neg hqk]
        rw [find_map_replace_ne t k v q hqk]
        simp [headerMapGet, List.find?, h2]
    · have hhead : (a.1 == k) = false := by simpa using hak
      unfold headerMapInsert
      simp only [List.any_cons, hhead, Bool.false_or]
      cases hta : t.any (fun nv => nv.1 == k) with
      | true =>
        simp only [if_true]
        have hinsert : headerMapInsert t k v =
            t.map (fun nv => if nv.1 == k then (k, v) else nv) := by
          unfold headerMapInsert
          rw [hta]
          simp
        by_cases haq : a.1 = q
        · have hqk : ¬ q = k := fun hq => hak (haq.trans hq)
          simp only [headerMapGet, List.map_cons, List.find?, hhead, if_false]
          rw [if_neg (by simp [hak])]
          simp [haq, if_neg hqk]
        · simp only [headerMapGet, List.map_cons, List.find?]
          rw [if_neg (by simpa using hak)]
          have h2 : (a.1 == q) = false := by simpa using haq
          simp only [h2]
          have := ih
          rw [hinsert] at this
          simp only [headerMapGet] at this
          rw [this]
      | false =>
        rw [if_neg (by simp)]
        have hinsert : headerMapInsert t k v = t ++ [(k, v)] := by
          unfold headerMapInsert
          rw [hta]
          simp
        by_cases haq : a.1 = q
        · have hqk : ¬ q = k := fun hq => hak (haq.trans hq)
          simp only [headerMapGet, List.cons_append, List.find?]
          simp [haq, if_neg hqk]
        · have h2 : (a.1 == q) = false := by simpa using haq
          simp only [headerMapGet, List.cons_append, List.find?, h2]
          have := ih
          rw [hinsert] at this
          simp only [headerMapGet] at this
          simp only [List.append_eq]
          rw [this]

theorem tryMapHeadersAux_get (hs : List RawHeader) (name : List Nat) :
    ∀ acc m, tryMapHeadersAux hs acc = Except.ok m →
      headerMapGet m (headerNameLower name) =
        (match lastMatch hs name with
         | some h => some h.value
         | none => headerMapGet acc (headerNameLower name)) := by
  induction hs with
  | nil =>
    intro acc m hok
    simp [tryMapHeadersAux] at hok
    subst hok
    simp [lastMatch]
  | cons h t ih =>
    intro acc m hok
    unfold tryMapHeadersAux at hok
    by_cases hn : isValidHeaderName h.name = true
    case neg =>
      rw [Bool.not_eq_true] at hn
      rw [hn] at hok
      simp at hok
    case pos =>
    by_cases hval : h.value.all isValidHeaderValueByte = true
    case neg =>
      rw [Bool.not_eq_true] at hval
      rw [hn, hval] at hok
      simp at hok
    case pos =>
    rw [hn, hval] at hok
    simp at hok
    have hrec := ih (headerMapInsert acc (headerNameLower h.name) h.value) m hok
    unfold lastMatch
    cases hlm : lastMatch t name with
    | some r =>
      rw [hlm] at hrec
      simpa using hrec
    | none =>
      rw [hlm] at hrec
      simp only [] at hrec ⊢
      rw [hrec, headerMapGet_insert]
      have hcond : eqIgnoreCase h.name name =
          (headerNameLower h.name == headerNameLower name) := rfl
      cases heq : eqIgnoreCase h.name name with
      | true =>
        have : headerNameLower name = headerNameLower h.name := by
          rw [hcond] at heq
          have h3 : headerNameLower h.name = headerNameLower name := by
            simpa using heq
          exact h3.symm
        simp [this]
      | false =>
        have : ¬ headerNameLower name = headerNameLower h.name := by
          rw [hcond] at heq
          intro hx
          rw [hx] at heq
          simp at heq
        simp [this]

/-- C10: when the raw header list contains several headers whose names are
case-insensitively Sec-WebSocket-Key, the validation and key capture use
the first occurrence in list order (`kh`), while the owned header map of
the returned request retains the value of the last occurrence (`kl`) —
insert is last-write-wins — for a request that otherwise passes every
rule and converts cleanly. -/
theorem c10_duplicate_headers {Ext : Type}
    (negServer : List RawHeader → Except Unit (Option (Ext × List Nat)))
    (parseUri : List Nat → Option (List Nat))
    (reg : List (List Nat)) (r : HttparseRequest)
    (kh kl : RawHeader) (p u : List Nat) (extOpt : Option (Ext × List Nat))
    (hv : r.version = some 1) (hm : methodOk r = true)
    (hc : connectionOk r = true) (hup : upgradeOk r = true)
    (hver : versionHeaderOk r = true) (hho : hostPresent r = true)
    (hk : findHeader r.headers SEC_WEBSOCKET_KEY_NAME = some kh)
    (hlast : lastMatch r.headers SEC_WEBSOCKET_KEY_NAME = some kl)
    (hpath : r.path = some p) (hu : parseUri p = some u)
    (hvalid : ∀ h ∈ r.headers, isValidHeaderName h.name = true ∧
      h.value.all isValidHeaderValueByte = true)
    (hext : negServer r.headers = Except.ok extOpt) :
    ∃ res, parse_request negServer parseUri reg r = Except.ok res ∧
      res.key = kh.value ∧
      headerMapGet res.request.headers SEC_WEBSOCKET_KEY_NAME =
        some kl.value := by
  obtain ⟨m, hme, hmg⟩ := methodOk_true hm
  obtain ⟨cd, hcf, hany⟩ := connectionOk_true hc
  obtain ⟨ud, huf, huv⟩ := upgradeOk_true hup
  obtain ⟨vd, hvf, hvv⟩ := versionHeaderOk_true hver
  obtain ⟨hd, hhf⟩ := hostPresent_true hho
  obtain ⟨s, hneg⟩ := negotiate_request_ok reg r
  obtain ⟨hm2, hmap⟩ := tryMapHeadersAux_ok r.headers [] hvalid
  have htm : Request_try_map parseUri r =
      Except.ok (Request.mk GET_UPPER u hm2) := by
    unfold Request_try_map tryMapHeaders
    simp [hpath, hu, hmap]
  have hget := tryMapHeadersAux_get r.headers SEC_WEBSOCKET_KEY_NAME [] hm2 hmap
  rw [hlast] at hget
  have hlow : headerNameLower SEC_WEBSOCKET_KEY_NAME = SEC_WEBSOCKET_KEY_NAME := by
    decide
  rw [hlow] at hget
  cases extOpt with
  | none =>
    refine ⟨HandshakeResult.mk kh.value (Request.mk GET_UPPER u hm2)
      NegotiatedExtension.noExtension s none, ?_, rfl, ?_⟩
    · unfold parse_request
      rw [hv, hme]
      simp [hmg, validate_header, validate_header_value, get_header, hcf,
        connection_check, hany, huf, huv, hvf, hvv, hhf, hk, hneg, hext, htm,
        Except.bind, Except.map, Except.mapError]
    · simpa using hget
  | some pair =>
    obtain ⟨e, hdr⟩ := pair
    refine ⟨HandshakeResult.mk kh.value (Request.mk GET_UPPER u hm2)
      (NegotiatedExtension.negotiated e) s (some hdr), ?_, rfl, ?_⟩
    · unfold parse_request
      rw [hv, hme]
      simp [hmg, validate_header, validate_header_value, get_header, hcf,
        connection_check, hany, huf, huv, hvf, hvv, hhf, hk, hneg, hext, htm,
        Except.bind, Except.map, Except.mapError]
    · simpa using hget

/-- C10 witness: with two Sec-WebSocket-Key headers (values `abc` then
`xyz`) in an otherwise valid request, the decoded key is `abc` (first
occurrence) while the owned header map holds `xyz` (last occurrence). -/
theorem c10_duplicate_headers_witness :
    ∃ res, @parse_request Unit (fun _ => Except.ok none) (fun q => some q) []
      (HttparseRequest.mk (some [71, 69, 84]) (some [47]) (some 1)
        [RawHeader.mk [72, 111, 115, 116] [101, 120],
         RawHeader.mk [67, 111, 110, 110, 101, 99, 116, 105, 111, 110]
           [85, 112, 103, 114, 97, 100, 101],
         RawHeader.mk [85, 112, 103, 114, 97, 100, 101] WEBSOCKET_STR,
         RawHeader.mk SEC_WEBSOCKET_VERSION_NAME WEBSOCKET_VERSION_STR,
         RawHeader.mk [83, 101, 99, 45, 87, 101, 98, 83, 111, 99, 107, 101,
           116, 45, 75, 101, 121] [97, 98, 99],
         RawHeader.mk SEC_WEBSOCKET_KEY_NAME [120, 121, 122]]) =
        Except.ok res ∧
      res.key = [97, 98, 99] ∧
      headerMapGet res.request.headers SEC_WEBSOCKET_KEY_NAME =
        some [120, 121, 122] :=
  c10_duplicate_headers (fun _ => Except.ok none) (fun q => some q) []
    (HttparseRequest.mk (some [71, 69, 84]) (some [47]) (some 1)
      [RawHeader.mk [72, 111, 115, 116] [101, 120],
       RawHeader.mk [67, 111, 110, 110, 101, 99, 116, 105, 111, 110]
         [85, 112, 103, 114, 97, 100, 101],
       RawHeader.mk [85, 112, 103, 114, 97, 100, 101] WEBSOCKET_STR,
       RawHeader.mk SEC_WEBSOCKET_VERSION_NAME WEBSOCKET_VERSION_STR,
       RawHeader.mk [83, 101, 99, 45, 87, 101, 98, 83, 111, 99, 107, 101, 116,
         45, 75, 101, 121] [97, 98, 99],
       RawHeader.mk SEC_WEBSOCKET_KEY_NAME [120, 121, 122]])
    (RawHeader.mk [83, 101, 99, 45, 87, 101, 98, 83, 111, 99, 107, 101, 116,
      45, 75, 101, 121] [97, 98, 99])
    (RawHeader.mk SEC_WEBSOCKET_KEY_NAME [120, 121, 122])
    [47] [47] none (by decide) (by decide) (by decide) (by decide) (by decide)
    (by decide) (by decide) (by decide) (by decide) (by decide) (by decide) rfl

/-- C5: when the byte parser reports a partial request,
`RequestParser::decode` fails immediately with an HTTP-version error if
the fragment shows a version other than 1, fails immediately with an
HTTP-method error if the fragment shows a method other than
case-insensitive `get`, and otherwise returns the not-enough-data outcome
(`ok none`) so the driver keeps reading; an absent version or method is
never an error at this stage. -/
theorem c5_fast_fail {Ext : Type}
    (negServer : List RawHeader → Except Unit (Option (Ext × List Nat)))
    (parseUri : List Nat → Option (List Nat))
    (reg : List (List Nat)) (frag : HttparseRequest) :
    (∀ v, frag.version = some v → v ≠ 1 →
      RequestParser_decode negServer parseUri reg (ParseOutcome.incomplete frag) =
        Except.error (Error.http (HttpError.httpVersion (some v)))) ∧
    ((frag.version = some 1 ∨ frag.version = none) →
      ∀ m, frag.method = some m → eqIgnoreCase m METHOD_GET = false →
      RequestParser_decode negServer parseUri reg (ParseOutcome.incomplete frag) =
        Except.error (Error.http (HttpError.httpMethod (some m)))) ∧
    ((frag.version = some 1 ∨ frag.version = none) →
      (frag.method = none ∨
        ∃ m, frag.method = some m ∧ eqIgnoreCase m METHOD_GET = true) →
      RequestParser_decode negServer parseUri reg (ParseOutcome.incomplete frag) =
        Except.ok none) := by
  have hred : RequestParser_decode negServer parseUri reg
      (ParseOutcome.incomplete frag) =
      Except.map (fun _ => none) (check_incomplete_request frag) := rfl
  refine ⟨?_, ?_, ?_⟩
  · intro v hv hne
    rw [hred]
    unfold check_incomplete_request
    rw [hv]
    split
    · rename_i heq
      exact absurd (by simpa using heq) hne
    · rename_i heq
      exact absurd heq (by simp)
    · rename_i v2 hne2 heq
      injection heq with hvv
      subst hvv
      simp [Except.bind, Except.map]
  · intro hv m hm hfail
    rw [hred]
    unfold check_incomplete_request
    rcases hv with hv | hv <;>
      rw [hv, hm] <;> simp [hfail, Except.bind, Except.map]
  · intro hv hm
    rw [hred]
    unfold check_incomplete_request
    rcases hv with hv | hv <;> rcases hm with hm | ⟨m, hm, hok⟩ <;>
      rw [hv, hm] <;> simp [Except.bind, Except.map] <;> simp [hok]

/-- C5 witness: a partial fragment showing HTTP version `0` is rejected at
once with the HTTP-version error naming version `0`. -/
theorem c5_fast_fail_witness :
    @RequestParser_decode Unit (fun _ => Except.ok none) (fun q => some q) []
      (ParseOutcome.incomplete (HttparseRequest.mk none none (some 0) [])) =
      Except.error (Error.http (HttpError.httpVersion (some 0))) :=
  (c5_fast_fail (fun _ => Except.ok none) (fun q => some q) []
    (HttparseRequest.mk none none (some 0) [])).1 0 rfl (by decide)

/-- C7: soundness of the `StreamingParser::parse` loop over any decode
step and any sequence of read chunks.  If the loop returns a value, some
iteration's decode reported completion with a consumed count, every
earlier iteration reported partial input, and the final buffer is the
accumulated buffer advanced by exactly that count; if it returns an
error, some iteration's decode reported exactly that error with every
earlier iteration partial; and if it is still looping after all reads,
every iteration reported partial input — so partial input is the only
condition under which the loop continues. -/
theorem c7_streaming_parse {O : Type}
    (decode : List Nat → Except Error (Option (O × Nat)))
    (ds : List (List Nat)) :
    ∀ buf,
    (∀ out final, streamingParse decode ds buf = some (Except.ok (out, final)) →
      ∃ i count, i < ds.length ∧
        decode (buf ++ ((ds.take (i + 1)).flatten)) =
          Except.ok (some (out, count)) ∧
        final = (buf ++ ((ds.take (i + 1)).flatten)).drop count ∧
        ∀ j, j < i → decode (buf ++ ((ds.take (j + 1)).flatten)) =
          Except.ok none) ∧
    (∀ e, streamingParse decode ds buf = some (Except.error e) →
      ∃ i, i < ds.length ∧
        decode (buf ++ ((ds.take (i + 1)).flatten)) = Except.error e ∧
        ∀ j, j < i → decode (buf ++ ((ds.take (j + 1)).flatten)) =
          Except.ok none) ∧
    (streamingParse decode ds buf = none →
      ∀ i, i < ds.length → decode (buf ++ ((ds.take (i + 1)).flatten)) =
        Except.ok none) := by
  induction ds with
  | nil =>
    intro buf
    refine ⟨?_, ?_, ?_⟩
    · intro out final h
      simp [streamingParse] at h
    · intro e h
      simp [streamingParse] at h
    · intro _ i hi
      simp at hi
  | cons d rest ih =>
    intro buf
    have hunf : streamingParse decode (d :: rest) buf =
        match decode (buf ++ d) with
        | Except.ok (some (out, count)) =>
            some (Except.ok (out, (buf ++ d).drop count))
        | Except.ok none => streamingParse decode rest (buf ++ d)
        | Except.error e => some (Except.error e) := rfl
    have hstep : ∀ j, buf ++ (((d :: rest).take (j + 2)).flatten) =
        (buf ++ d) ++ ((rest.take (j + 1)).flatten) := by
      intro j
      simp [List.take_succ_cons, List.append_assoc]
    have hzero : buf ++ (((d :: rest).take 1).flatten) = buf ++ d := by
      simp
    cases hdec : decode (buf ++ d) with
    | ok o =>
      cases o with
      | some pr =>
        obtain ⟨out0, count0⟩ := pr
        rw [hdec] at hunf
        refine ⟨?_, ?_, ?_⟩
        · intro out final h
          rw [hunf] at h
          simp at h
          obtain ⟨hout, hfin⟩ := h
          subst hout
          refine ⟨0, count0, by simp, ?_, ?_, ?_⟩
          · rw [hzero, hdec]
          · rw [hzero]
            exact hfin.symm
          · intro j hj
            omega
        · intro e h
          rw [hunf] at h
          simp at h
        · intro h
          rw [hunf] at h
          simp at h
      | none =>
        rw [hdec] at hunf
        obtain ⟨ih1, ih2, ih3⟩ := ih (buf ++ d)
        refine ⟨?_, ?_, ?_⟩
        · intro out final h
          rw [hunf] at h
          obtain ⟨i, count, hi, hd2, hfin, hprev⟩ := ih1 out final h
          refine ⟨i + 1, count, by simpa using Nat.succ_lt_succ hi, ?_, ?_, ?_⟩
          · rw [hstep i]
            exact hd2
          · rw [hstep i]
            exact hfin
          · intro j hj
            cases j with
            | zero =>
              rw [hzero]
              exact hdec
            | succ k =>
              rw [hstep k]
              exact hprev k (Nat.lt_of_succ_lt_succ hj)
        · intro e h
          rw [hunf] at h
          obtain ⟨i, hi, hd2, hprev⟩ := ih2 e h
          refine ⟨i + 1, by simpa using Nat.succ_lt_succ hi, ?_, ?_⟩
          · rw [hstep i]
            exact hd2
          · intro j hj
            cases j with
            | zero =>
              rw [hzero]
              exact hdec
            | succ k =>
              rw [hstep k]
              exact hprev k (Nat.lt_of_succ_lt_succ hj)
        · intro h i hi
          rw [hunf] at h
          cases i with
          | zero =>
            rw [hzero]
            exact hdec
          | succ k =>
            rw [hstep k]
            exact ih3 h k (by simpa using Nat.lt_of_succ_lt_succ hi)
    | error e0 =>
      rw [hdec] at hunf
      refine ⟨?_, ?_, ?_⟩
      · intro out final h
        rw [hunf] at h
        simp at h
      · intro e h
        rw [hunf] at h
        simp at h
        subst h
        refine ⟨0, by simp, ?_, ?_⟩
        · rw [hzero]
          exact hdec
        · intro j hj
          omega
      · intro h
        rw [hunf] at h
        simp at h

/-- C7 witness: a decode step that reports partial input until the buffer
holds two bytes and then consumes one byte reporting the buffer length;
fed the chunks `[5]` then `[6, 7]`, the loop returns the value `3` with
the buffer advanced past the single consumed byte, and the soundness
theorem locates the completing iteration. -/
theorem c7_streaming_parse_witness :
    ∃ i count, i < ([[5], [6, 7]] : List (List Nat)).length ∧
      (fun b : List Nat =>
        if 2 ≤ b.length then Except.ok (some (b.length, 1))
        else (Except.ok none : Except Error (Option (Nat × Nat))))
        (([] : List Nat) ++ ((([[5], [6, 7]] : List (List Nat)).take (i + 1)).flatten)) =
        Except.ok (some (3, count)) ∧
      ([6, 7] : List Nat) =
        (([] : List Nat) ++
          ((([[5], [6, 7]] : List (List Nat)).take (i + 1)).flatten)).drop count ∧
      ∀ j, j < i →
        (fun b : List Nat =>
          if 2 ≤ b.length then Except.ok (some (b.length, 1))
          else (Except.ok none : Except Error (Option (Nat × Nat))))
          (([] : List Nat) ++ ((([[5], [6, 7]] : List (List Nat)).take (j + 1)).flatten)) =
          Except.ok none :=
  (c7_streaming_parse
    (fun b : List Nat =>
      if 2 ≤ b.length then Except.ok (some (b.length, 1))
      else (Except.ok none : Except Error (Option (Nat × Nat))))
    [[5], [6, 7]] []).1 3 [6, 7] rfl

theorem tryMapHeadersAux_firstError (pre : List RawHeader) :
    ∀ acc (h : RawHeader) (post : List RawHeader),
      (∀ g ∈ pre, isValidHeaderName g.name = true ∧
        g.value.all isValidHeaderValueByte = true) →
      (isValidHeaderName h.name = false ∨
        h.value.all isValidHeaderValueByte = false) →
      tryMapHeadersAux (pre ++ h :: post) acc = Except.error (headerString h) := by
  induction pre with
  | nil =>
    intro acc h post _ hinv
    unfold tryMapHeadersAux
    by_cases hn : isValidHeaderName h.name = true
    · rcases hinv with hinv | hinv
      · rw [hinv] at hn
        exact absurd hn (by simp)
      · simp [hn, hinv]
    · rw [Bool.not_eq_true] at hn
      simp [hn]
  | cons g pre2 ih =>
    intro acc h post hpre hinv
    have hg := hpre g (List.mem_cons_self g pre2)
    have hpre2 : ∀ x ∈ pre2, isValidHeaderName x.name = true ∧
        x.value.all isValidHeaderValueByte = true :=
      fun x hx => hpre x (List.mem_cons_of_mem g hx)
    have : (g :: pre2) ++ h :: post = g :: (pre2 ++ h :: post) := rfl
    rw [this]
    unfold tryMapHeadersAux
    simp [hg.1, hg.2]
    exact ih _ h post hpre2 hinv

/-- C8: converting a raw header list to an owned header map fails exactly
at the first entry whose name is not a valid header-name token or whose
value is not a valid header-value byte sequence, with the error carrying
the diagnostic `name: value` in which the value is rendered by lossy
UTF-8 decoding; it succeeds when every entry is valid.  Converting a raw
request with no path fails with the malformed-URI error, and a
header-conversion failure inside request conversion propagates with its
diagnostic unchanged. -/
theorem c8_header_conversion (parseUri : List Nat → Option (List Nat)) :
    (∀ (pre : List RawHeader) (h : RawHeader) (post : List RawHeader),
      (∀ g ∈ pre, isValidHeaderName g.name = true ∧
        g.value.all isValidHeaderValueByte = true) →
      (isValidHeaderName h.name = false ∨
        h.value.all isValidHeaderValueByte = false) →
      tryMapHeaders (pre ++ h :: post) = Except.error (headerString h)) ∧
    (∀ hs : List RawHeader,
      (∀ h ∈ hs, isValidHeaderName h.name = true ∧
        h.value.all isValidHeaderValueByte = true) →
      ∃ m, tryMapHeaders hs = Except.ok m) ∧
    (∀ r : HttparseRequest, r.path = none →
      Request_try_map parseUri r =
        Except.error (HttpError.malformattedUri none)) ∧
    (∀ (r : HttparseRequest) (p u d : List Nat), r.path = some p →
      parseUri p = some u →
      tryMapHeaders r.headers = Except.error d →
      Request_try_map parseUri r =
        Except.error (HttpError.invalidHeaderConv d)) := by
  refine ⟨?_, ?_, ?_, ?_⟩
  · intro pre h post hpre hinv
    exact tryMapHeadersAux_firstError pre [] h post hpre hinv
  · intro hs hvalid
    exact tryMapHeadersAux_ok hs [] hvalid
  · intro r hpath
    unfold Request_try_map
    rw [hpath]
  · intro r p u d hpath hp herr
    unfold Request_try_map
    rw [hpath]
    simp [hp, herr]

/-- C8 witness: the single header `x` whose value is the bytes
`[150, 10]` (the line feed is not a valid header-value byte) is rejected,
and the diagnostic is `x: ` followed by the lossy rendering of the value
— the stray byte `150` becomes the replacement character
`[239, 191, 189]` and the line feed stays. -/
theorem c8_header_conversion_witness :
    tryMapHeaders [RawHeader.mk [120] [150, 10]] =
      Except.error [120, 58, 32, 239, 191, 189, 10] :=
  (c8_header_conversion (fun q => some q)).1 [] (RawHeader.mk [120] [150, 10]) []
    (by simp) (Or.inr (by decide))

/-- C9: request normalization reduces each accepted input shape to a URI
wrapped as a GET request with the empty body and no headers — a URI
directly, a string through the URI parser (whose failure surfaces as the
underlying parse error), a URL through its string rendering — while a
pre-built `Request` passes through unchanged. -/
theorem c9_request_normalization
    (parseUri : List Nat → Except Error (List Nat)) :
    (∀ r : Request, Request_try_into_request r = Except.ok r) ∧
    (∀ u : List Nat, Uri_try_into_request u =
      Except.ok (Request.mk GET_UPPER u [])) ∧
    (∀ s e, parseUri s = Except.error e →
      str_try_into_request parseUri s = Except.error e) ∧
    (∀ s u, parseUri s = Except.ok u →
      str_try_into_request parseUri s =
        Except.ok (Request.mk GET_UPPER u [])) ∧
    (∀ w, Url_try_into_request parseUri w = str_try_into_request parseUri w) := by
  refine ⟨?_, ?_, ?_, ?_, ?_⟩
  · intro r
    rfl
  · intro u
    rfl
  · intro s e h
    simp [str_try_into_request, h, Except.bind]
  · intro s u h
    simp [str_try_into_request, Uri_try_into_request, h, Except.bind]
  · intro w
    rfl

/-- C9 witness: with a URI parser that accepts the path `/`, the string
form normalizes to the GET request at `/` with no headers, applying the
string-input conjunct at that concrete input. -/
theorem c9_request_normalization_witness :
    str_try_into_request (fun s => Except.ok s) [47] =
      Except.ok (Request.mk GET_UPPER [47] []) :=
  (c9_request_normalization (fun s => Except.ok s)).2.2.2.1 [47] [47] rfl

end Ratchet
